import Mathlib

/-!
Verification development for the quiz-video-generator repository.

The Python sources are shallowly embedded:
* pure text-layout code (`clips.py`) over an abstract font-metric function,
  with Python strings modelled as `List Char`;
* timing/animation code over `ℚ` (Python floats here hold small decimal
  constants and exact arithmetic on them);
* fallible code (`build_question_video` and the per-question driver in
  `main.py`) as `Except String`/`Option` values, with the filesystem
  modelled as the list of existing paths / directory listings.
-/

namespace QuizVideo

/-! ### config/settings.py -/

def DUR_GUESS : ℚ := 10

def DUR_REVEAL : ℚ := 3

def W : ℕ := 1920

def H : ℕ := 1080

/-- Palette entry `PALETTE["bar_bg"]`. -/
def bar_bg : ℕ × ℕ × ℕ := (68, 68, 102)

/-- Palette entry `PALETTE["bar_fg"]`. -/
def bar_fg : ℕ × ℕ × ℕ := (255, 255, 0)

/-- Palette entry `PALETTE["opt"]`. -/
def opt_color : ℕ × ℕ × ℕ := (170, 170, 170)

/-- Palette entry `PALETTE["correct"]`. -/
def correct_color : ℕ × ℕ × ℕ := (76, 175, 80)

def Q_WIDTH : ℕ := 1600

def Q_TOP_MARGIN : ℚ := 150

def OPT_COLS : List ℚ := [150, 1000]

def OPT_ROW_GAP : ℚ := 150

def OPT_TOP_GAP : ℚ := 200

def SLIDE_DELAY : ℚ := 0.15

def SLIDE_DUR : ℚ := 0.25

/-! ### Python strings: split on whitespace (str.split with no argument) -/

/-- Whitespace test used by Python `str.split()`. -/
def isWs (c : Char) : Bool := c.isWhitespace

/-- Helper for `pySplit`: `cur` holds the characters of the word currently
being scanned, in reverse order. -/
def splitAux : List Char → List Char → List (List Char)
  | [], cur => if cur = [] then [] else [cur.reverse]
  | c :: cs, cur =>
    if isWs c then
      if cur = [] then splitAux cs [] else cur.reverse :: splitAux cs []
    else splitAux cs (c :: cur)

/-- Python `text.split()`: the maximal runs of non-whitespace characters. -/
def pySplit (s : List Char) : List (List Char) := splitAux s []

/-- Models the expression `f"{current} {word}".strip()` from
`wrap_text_pixel` for a whitespace-free `w`: a single space joins the two
parts unless `current` is empty. -/
def joinSp (current w : List Char) : List Char :=
  if current = [] then w else current ++ ' ' :: w

/-! ### clips.py: wrap_text_pixel -/

/-- The `for word in words` loop of `wrap_text_pixel` (clips.py).
`width` abstracts the PIL `draw.textbbox` pixel width of a rendered string
for the chosen font. Greedily packs words into `current`; a line is flushed
when the candidate line overflows `maxW`. -/
def wrapLoop (width : List Char → ℕ) (maxW : ℕ) : List (List Char) → List Char → List (List Char)
  | [], current => if current = [] then [] else [current]
  | w :: ws, current =>
    if width (joinSp current w) ≤ maxW then wrapLoop width maxW ws (joinSp current w)
    else if current = [] then wrapLoop width maxW ws w
    else current :: wrapLoop width maxW ws w

/-- `wrap_text_pixel(text, font, max_width)` from clips.py. The source
returns the lines joined by a newline; the embedding keeps the list of
lines (the two are in bijection because no line contains a newline). -/
def wrap_text_pixel (width : List Char → ℕ) (text : List Char) (maxW : ℕ) : List (List Char) :=
  wrapLoop width maxW (pySplit text) []

/-! ### Facts about the wrapping loop -/

theorem wrapLoop_not_nil_mem (width : List Char → ℕ) (maxW : ℕ) :
    ∀ (ws : List (List Char)) (cur : List Char), [] ∉ wrapLoop width maxW ws cur := by
  intro ws
  induction ws with
  | nil =>
    intro cur h
    unfold wrapLoop at h
    by_cases hc : cur = []
    · rw [if_pos hc] at h
      exact List.not_mem_nil _ h
    · rw [if_neg hc] at h
      exact hc (List.mem_singleton.mp h).symm
  | cons w ws ih =>
    intro cur h
    unfold wrapLoop at h
    by_cases ht : width (joinSp cur w) ≤ maxW
    · rw [if_pos ht] at h
      exact ih _ h
    · rw [if_neg ht] at h
      by_cases hc : cur = []
      · rw [if_pos hc] at h
        exact ih _ h
      · rw [if_neg hc] at h
        rcases List.mem_cons.mp h with h1 | h1
        · exact hc h1.symm
        · exact ih _ h1

theorem wrapLoop_mem (width : List Char → ℕ) (maxW : ℕ) :
    ∀ (ws : List (List Char)) (cur line : List Char),
      line ∈ wrapLoop width maxW ws cur →
      width line ≤ maxW ∨ line = cur ∨ line ∈ ws := by
  intro ws
  induction ws with
  | nil =>
    intro cur line h
    unfold wrapLoop at h
    by_cases hc : cur = []
    · rw [if_pos hc] at h
      exact absurd h (List.not_mem_nil _)
    · rw [if_neg hc] at h
      exact Or.inr (Or.inl (List.mem_singleton.mp h))
  | cons w ws ih =>
    intro cur line h
    unfold wrapLoop at h
    by_cases ht : width (joinSp cur w) ≤ maxW
    · rw [if_pos ht] at h
      rcases ih _ _ h with h1 | h1 | h1
      · exact Or.inl h1
      · exact Or.inl (h1 ▸ ht)
      · exact Or.inr (Or.inr (List.mem_cons_of_mem _ h1))
    · rw [if_neg ht] at h
      by_cases hc : cur = []
      · rw [if_pos hc] at h
        rcases ih _ _ h with h1 | h1 | h1
        · exact Or.inl h1
        · exact Or.inr (Or.inr (h1 ▸ List.mem_cons_self _ _))
        · exact Or.inr (Or.inr (List.mem_cons_of_mem _ h1))
      · rw [if_neg hc] at h
        rcases List.mem_cons.mp h with h1 | h1
        · exact Or.inr (Or.inl h1)
        · rcases ih _ _ h1 with h2 | h2 | h2
          · exact Or.inl h2
          · exact Or.inr (Or.inr (h2 ▸ List.mem_cons_self _ _))
          · exact Or.inr (Or.inr (List.mem_cons_of_mem _ h2))

/-- C4. Every line produced by `wrap_text_pixel` either measures at most
the wrap width, or is one of the whitespace-separated words of the input
(necessarily emitted alone as its own overflowing line, since the line is
exactly that word). Holds for every font-metric function `width`. -/
theorem wrap_text_pixel_line_width_le (width : List Char → ℕ) (maxW : ℕ)
    (text line : List Char) (hmem : line ∈ wrap_text_pixel width text maxW) :
    width line ≤ maxW ∨ line ∈ pySplit text := by
  rcases wrapLoop_mem width maxW (pySplit text) [] line hmem with h | h | h
  · exact Or.inl h
  · rw [h] at hmem
    exact absurd hmem (wrapLoop_not_nil_mem width maxW (pySplit text) [])
  · exact Or.inr h

/-- Witness for C4: a concrete overflowing word. With `width` = character
count and wrap width 3, the text `"abcde fg"` wraps to the lines
`["abcde", "fg"]`; the line `"abcde"` overflows and is a word of the input. -/
theorem wrap_text_pixel_line_width_le_witness :
    "abcde".data ∈ wrap_text_pixel List.length "abcde fg".data 3 ∧
      (List.length "abcde".data ≤ 3 ∨ "abcde".data ∈ pySplit "abcde fg".data) :=
  ⟨by decide, wrap_text_pixel_line_width_le List.length 3 "abcde fg".data "abcde".data (by decide)⟩

/-! ### Shape of emitted lines: words joined by single spaces -/

/-- The text content of an emitted line: its words joined by single spaces. -/
def joinWords : List (List Char) → List Char
  | [] => []
  | [w] => w
  | w :: ws => w ++ ' ' :: joinWords ws

/-- A word: nonempty and free of whitespace (as produced by `pySplit`). -/
def GoodWord (w : List Char) : Prop := w ≠ [] ∧ ∀ c ∈ w, isWs c = false

/-- An emitted line of `wrap_text_pixel`: a nonempty space-join of words
that either fits in the wrap width or is a single word. -/
def GoodLine (width : List Char → ℕ) (maxW : ℕ) (line : List Char) : Prop :=
  ∃ ds, ds ≠ [] ∧ (∀ d ∈ ds, GoodWord d) ∧ line = joinWords ds ∧
    (width line ≤ maxW ∨ ∃ d, ds = [d])

/-- The font metric grows (weakly) when a further word is appended to a
line; true of PIL advance-width text metrics. -/
def MonoWidth (width : List Char → ℕ) : Prop :=
  ∀ cur w, width cur ≤ width (joinSp cur w)

@[simp] theorem joinWords_singleton (w : List Char) : joinWords [w] = w := rfl

theorem joinWords_cons_cons (w x : List Char) (ws : List (List Char)) :
    joinWords (w :: x :: ws) = w ++ ' ' :: joinWords (x :: ws) := rfl

theorem splitAux_nil (acc : List Char) :
    splitAux [] acc = if acc = [] then [] else [acc.reverse] := rfl

theorem splitAux_cons (c : Char) (cs acc : List Char) :
    splitAux (c :: cs) acc =
      if isWs c then (if acc = [] then splitAux cs [] else acc.reverse :: splitAux cs [])
      else splitAux cs (c :: acc) := rfl

theorem joinWords_glue (cur d : List Char) (ds : List (List Char)) :
    joinWords ((cur ++ ' ' :: d) :: ds) = cur ++ ' ' :: joinWords (d :: ds) := by
  cases ds with
  | nil => rfl
  | cons e ds => simp [joinWords_cons_cons, List.append_assoc]

theorem joinWords_ne_nil (ds : List (List Char)) (hne : ds ≠ [])
    (hgw : ∀ d ∈ ds, d ≠ []) : joinWords ds ≠ [] := by
  cases ds with
  | nil => exact absurd rfl hne
  | cons d ds =>
    cases ds with
    | nil => exact hgw d (List.mem_singleton.mpr rfl)
    | cons e ds => simp [joinWords_cons_cons]

theorem joinWords_append_last (cs : List (List Char)) (w : List Char) (hne : cs ≠ []) :
    joinWords (cs ++ [w]) = joinWords cs ++ ' ' :: w := by
  induction cs with
  | nil => exact absurd rfl hne
  | cons c cs ih =>
    cases cs with
    | nil => rfl
    | cons e cs' =>
      rw [show (c :: e :: cs') ++ [w] = c :: e :: (cs' ++ [w]) from rfl]
      rw [joinWords_cons_cons c e (cs' ++ [w])]
      rw [show e :: (cs' ++ [w]) = (e :: cs') ++ [w] from rfl]
      rw [ih (by simp)]
      rw [joinWords_cons_cons c e cs']
      simp [List.append_assoc]

theorem joinSp_of_ne_nil (cur w : List Char) (h : cur ≠ []) :
    joinSp cur w = cur ++ ' ' :: w := by
  unfold joinSp
  rw [if_neg h]

/-- Chaining the monotonicity hypothesis along a whole line. -/
theorem width_le_joinWords (width : List Char → ℕ) (hmono : MonoWidth width) :
    ∀ (ds : List (List Char)) (x : List Char), x ≠ [] →
      width x ≤ width (joinWords (x :: ds)) := by
  intro ds
  induction ds with
  | nil => intro x _; exact le_of_eq rfl
  | cons d ds ih =>
    intro x hx
    have h1 : width x ≤ width (joinSp x d) := hmono x d
    rw [joinSp_of_ne_nil x d hx] at h1
    have h2 := ih (x ++ ' ' :: d) (by simp)
    rw [joinWords_glue] at h2
    exact le_trans h1 h2

/-- A line whose full width fits is packed greedily into a single line. -/
theorem wrapLoop_fits (width : List Char → ℕ) (maxW : ℕ) (hmono : MonoWidth width) :
    ∀ (ds : List (List Char)) (cur : List Char), cur ≠ [] →
      width (joinWords (cur :: ds)) ≤ maxW →
      wrapLoop width maxW ds cur = [joinWords (cur :: ds)] := by
  intro ds
  induction ds with
  | nil =>
    intro cur hc _
    unfold wrapLoop
    rw [if_neg hc, joinWords_singleton]
  | cons d ds ih =>
    intro cur hc hw
    have htest : joinSp cur d = cur ++ ' ' :: d := joinSp_of_ne_nil cur d hc
    have hfit : width (joinSp cur d) ≤ maxW := by
      rw [htest]
      calc width (cur ++ ' ' :: d)
          ≤ width (joinWords ((cur ++ ' ' :: d) :: ds)) :=
            width_le_joinWords width hmono ds _ (by simp)
        _ = width (joinWords (cur :: d :: ds)) := by
            rw [joinWords_glue, ← joinWords_cons_cons]
        _ ≤ maxW := hw
    unfold wrapLoop
    rw [if_pos hfit, htest,
      ih (cur ++ ' ' :: d) (by simp) (by rw [joinWords_glue, ← joinWords_cons_cons]; exact hw),
      joinWords_glue, ← joinWords_cons_cons]

/-- Every line emitted by the wrapping loop is a space-join of good words
that fits the width or is a single word, provided the incoming words are
good and the accumulator is empty or itself such a line. -/
theorem wrapLoop_goodLine (width : List Char → ℕ) (maxW : ℕ) :
    ∀ (ws : List (List Char)) (cur : List Char), (∀ w ∈ ws, GoodWord w) →
      (cur = [] ∨ GoodLine width maxW cur) →
      ∀ line ∈ wrapLoop width maxW ws cur, GoodLine width maxW line := by
  intro ws
  induction ws with
  | nil =>
    intro cur _ hcur line hline
    unfold wrapLoop at hline
    by_cases hc : cur = []
    · rw [if_pos hc] at hline
      exact absurd hline (List.not_mem_nil _)
    · rw [if_neg hc] at hline
      rw [List.mem_singleton.mp hline]
      exact hcur.resolve_left hc
  | cons w ws ih =>
    intro cur hws hcur line hline
    have hw : GoodWord w := hws w (List.mem_cons_self _ _)
    have hws' : ∀ x ∈ ws, GoodWord x := fun x hx => hws x (List.mem_cons_of_mem _ hx)
    have hwGood : GoodLine width maxW w :=
      ⟨[w], by simp, by simpa using hw, rfl, Or.inr ⟨w, rfl⟩⟩
    unfold wrapLoop at hline
    by_cases ht : width (joinSp cur w) ≤ maxW
    · rw [if_pos ht] at hline
      refine ih (joinSp cur w) hws' (Or.inr ?_) line hline
      rcases hcur with hc | ⟨cs, hcne, hcgw, hcj, _⟩
      · subst hc
        exact ⟨[w], by simp, by simpa using hw, by simp [joinSp], Or.inl (by simpa [joinSp] using ht)⟩
      · have hcurne : cur ≠ [] := by
          rw [hcj]
          exact joinWords_ne_nil cs hcne (fun d hd => (hcgw d hd).1)
        refine ⟨cs ++ [w], by simp, ?_, ?_, Or.inl ht⟩
        · intro d hd
          rcases List.mem_append.mp hd with hd | hd
          · exact hcgw d hd
          · rw [List.mem_singleton.mp hd]; exact hw
        · rw [joinSp_of_ne_nil cur w hcurne, joinWords_append_last cs w hcne, hcj]
    · rw [if_neg ht] at hline
      by_cases hc : cur = []
      · rw [if_pos hc] at hline
        exact ih w hws' (Or.inr hwGood) line hline
      · rw [if_neg hc] at hline
        rcases List.mem_cons.mp hline with h1 | h1
        · rw [h1]
          exact hcur.resolve_left hc
        · exact ih w hws' (Or.inr hwGood) line h1

/-! ### Round trip: splitting a joined line recovers its words -/

theorem splitAux_append (d : List Char) :
    ∀ (rest acc : List Char), (∀ c ∈ d, isWs c = false) →
      splitAux (d ++ rest) acc = splitAux rest (d.reverse ++ acc) := by
  induction d with
  | nil => intro rest acc _; simp
  | cons c d ih =>
    intro rest acc hws
    have hc : isWs c = false := hws c (List.mem_cons_self _ _)
    have hd : ∀ x ∈ d, isWs x = false := fun x hx => hws x (List.mem_cons_of_mem _ hx)
    rw [List.cons_append, splitAux_cons, hc]
    simp only [Bool.false_eq_true, if_false]
    rw [ih rest (c :: acc) hd]
    simp [List.append_assoc]

theorem pySplit_joinWords :
    ∀ ds : List (List Char), (∀ d ∈ ds, GoodWord d) → pySplit (joinWords ds) = ds := by
  intro ds
  induction ds with
  | nil => intro _; rfl
  | cons d ds ih =>
    intro hgw
    have hd : GoodWord d := hgw d (List.mem_cons_self _ _)
    have hds : ∀ x ∈ ds, GoodWord x := fun x hx => hgw x (List.mem_cons_of_mem _ hx)
    cases ds with
    | nil =>
      show splitAux (joinWords [d]) [] = [d]
      rw [joinWords_singleton, show d = d ++ [] by simp, splitAux_append d [] [] hd.2]
      rw [splitAux_nil]
      rw [if_neg (by simpa using hd.1)]
      simp
    | cons e ds' =>
      show splitAux (joinWords (d :: e :: ds')) [] = d :: e :: ds'
      rw [joinWords_cons_cons, splitAux_append d (' ' :: joinWords (e :: ds')) [] hd.2]
      rw [splitAux_cons]
      rw [if_pos (by decide : isWs ' ' = true)]
      rw [if_neg (by simpa using hd.1)]
      simp only [List.append_nil, List.reverse_reverse]
      rw [show splitAux (joinWords (e :: ds')) [] = pySplit (joinWords (e :: ds')) from rfl]
      rw [ih hds]

/-- All words produced by `pySplit` are nonempty and whitespace-free. -/
theorem pySplit_goodWords (s : List Char) : ∀ w ∈ pySplit s, GoodWord w := by
  suffices h : ∀ (s acc : List Char), (∀ c ∈ acc, isWs c = false) →
      ∀ w ∈ splitAux s acc, GoodWord w from h s [] (by simp)
  intro s
  induction s with
  | nil =>
    intro acc hacc w hw
    unfold splitAux at hw
    by_cases ha : acc = []
    · rw [if_pos ha] at hw
      exact absurd hw (List.not_mem_nil _)
    · rw [if_neg ha] at hw
      rw [List.mem_singleton.mp hw]
      exact ⟨by simpa using ha, fun c hc => hacc c (List.mem_reverse.mp hc)⟩
  | cons c s ih =>
    intro acc hacc w hw
    unfold splitAux at hw
    by_cases hc : isWs c = true
    · rw [if_pos hc] at hw
      by_cases ha : acc = []
      · rw [if_pos ha] at hw
        exact ih [] (by simp) w hw
      · rw [if_neg ha] at hw
        rcases List.mem_cons.mp hw with h1 | h1
        · rw [h1]
          exact ⟨by simpa using ha, fun x hx => hacc x (List.mem_reverse.mp hx)⟩
        · exact ih [] (by simp) w h1
    · rw [if_neg hc] at hw
      refine ih (c :: acc) ?_ w hw
      intro x hx
      rcases List.mem_cons.mp hx with h1 | h1
      · rw [h1]; exact Bool.not_eq_true _ ▸ hc
      · exact hacc x h1

/-- C7. Pixel wrapping is idempotent on its own output: re-wrapping any
single line of the output (same font metric, same width) returns that line
unsplit. `MonoWidth` states that the measured width never shrinks when a
word is appended, which holds for actual font advance-width metrics. -/
theorem wrap_text_pixel_idempotent (width : List Char → ℕ) (maxW : ℕ)
    (text line : List Char) (hmono : MonoWidth width)
    (hmem : line ∈ wrap_text_pixel width text maxW) :
    wrap_text_pixel width line maxW = [line] := by
  have hgood : GoodLine width maxW line :=
    wrapLoop_goodLine width maxW (pySplit text) [] (pySplit_goodWords text) (Or.inl rfl)
      line hmem
  obtain ⟨ds, hne, hgw, hjoin, hdisj⟩ := hgood
  unfold wrap_text_pixel
  rw [hjoin, pySplit_joinWords ds hgw]
  rcases hdisj with hle | ⟨d, hd⟩
  · cases ds with
    | nil => exact absurd rfl hne
    | cons d ds' =>
      have hd : GoodWord d := hgw d (List.mem_cons_self _ _)
      rw [hjoin] at hle
      unfold wrapLoop
      have hds : joinSp [] d = d := by simp [joinSp]
      rw [hds]
      rw [if_pos (le_trans (width_le_joinWords width hmono ds' d hd.1) hle)]
      rw [wrapLoop_fits width maxW hmono ds' d hd.1 hle]
  · subst hd
    have hdne : d ≠ [] := (hgw d (List.mem_cons_self _ _)).1
    have hjd : joinWords [d] = d := rfl
    rw [hjd]
    unfold wrapLoop
    rw [show joinSp [] d = d from by simp [joinSp]]
    by_cases hw : width d ≤ maxW
    · rw [if_pos hw]
      unfold wrapLoop
      rw [if_neg hdne]
    · rw [if_neg hw, if_pos rfl]
      unfold wrapLoop
      rw [if_neg hdne]

theorem monoWidth_length : MonoWidth List.length := by
  intro cur w
  unfold joinSp
  by_cases h : cur = []
  · rw [if_pos h, h]
    simp
  · rw [if_neg h]
    simp

/-- Witness for C7: with `width` = character count and wrap width 5, the
line produced from the text `"ab cd"` re-wraps to exactly itself. -/
theorem wrap_text_pixel_idempotent_witness :
    (MonoWidth List.length ∧ "ab cd".data ∈ wrap_text_pixel List.length "ab cd".data 5) ∧
      wrap_text_pixel List.length "ab cd".data 5 = ["ab cd".data] :=
  ⟨⟨monoWidth_length, by decide⟩,
    wrap_text_pixel_idempotent List.length 5 "ab cd".data "ab cd".data monoWidth_length
      (by decide)⟩

/-! ### clips.py: slide-in position function and option clip duration -/

/-- The closure `get_position(t, idx=idx, x0=OPT_COLS[col], y0=y)` defined
inside `make_option_clips` (clips.py). Default-argument capture makes it a
pure function of `idx`, `x0`, `y0` and `t`. -/
def get_position (idx : ℕ) (x0 y0 t : ℚ) : ℚ × ℚ :=
  if t - idx * SLIDE_DELAY ≤ 0 then (x0 - 200, y0)
  else if SLIDE_DUR ≤ t - idx * SLIDE_DELAY then (x0, y0)
  else (x0 - 200 * (1 - (t - idx * SLIDE_DELAY) / SLIDE_DUR), y0)

/-- `clip_duration = max(0.1, dur - idx * SLIDE_DELAY)` from
`make_option_clips` (clips.py, guess phase). -/
def clip_duration (dur : ℚ) (idx : ℕ) : ℚ := max 0.1 (dur - idx * SLIDE_DELAY)

/-- C5. The slide-in position of the k-th option: off-canvas by 200 px
before its delayed start, exactly at rest after `SLIDE_DUR`, linearly
interpolated and strictly increasing in between; and the k-th option's
clip duration is `max(0.1, dur - k * SLIDE_DELAY)`. -/
theorem get_position_spec (idx : ℕ) (x0 y0 t t1 t2 dur : ℚ) :
    (t - idx * SLIDE_DELAY ≤ 0 → get_position idx x0 y0 t = (x0 - 200, y0)) ∧
    (SLIDE_DUR ≤ t - idx * SLIDE_DELAY → get_position idx x0 y0 t = (x0, y0)) ∧
    (0 < t - idx * SLIDE_DELAY → t - idx * SLIDE_DELAY < SLIDE_DUR →
      get_position idx x0 y0 t =
        (x0 - 200 * (1 - (t - idx * SLIDE_DELAY) / SLIDE_DUR), y0)) ∧
    (0 < t1 - idx * SLIDE_DELAY → t2 - idx * SLIDE_DELAY < SLIDE_DUR → t1 < t2 →
      (get_position idx x0 y0 t1).1 < (get_position idx x0 y0 t2).1) ∧
    clip_duration dur idx = max 0.1 (dur - idx * SLIDE_DELAY) := by
  refine ⟨?_, ?_, ?_, ?_, rfl⟩
  · intro h
    unfold get_position
    rw [if_pos h]
  · intro h
    unfold get_position
    rw [if_neg (by unfold SLIDE_DUR at h; linarith), if_pos h]
  · intro h1 h2
    unfold get_position
    rw [if_neg (by linarith), if_neg (by linarith)]
  · intro h1 h2 h3
    have e1pos : 0 < t1 - idx * SLIDE_DELAY := h1
    have e12 : t1 - idx * SLIDE_DELAY < t2 - idx * SLIDE_DELAY := by linarith
    unfold get_position SLIDE_DUR at *
    rw [if_neg (by linarith), if_neg (by linarith), if_neg (by linarith),
      if_neg (by linarith)]
    simp only
    have key : (t1 - (idx : ℚ) * SLIDE_DELAY) / 0.25 < (t2 - (idx : ℚ) * SLIDE_DELAY) / 0.25 := by
      gcongr
    linarith

/-- Witness for C5: option index 0, rest x-position 300: before the start
the x-position is 100 (200 px left), at `t = 1` it is at rest, and at
`t = 1/8` (the midpoint of the slide) it is at 200. -/
theorem get_position_spec_witness :
    ((-1 : ℚ) - 0 * SLIDE_DELAY ≤ 0 ∧ get_position 0 300 500 (-1) = (100, 500)) ∧
    (SLIDE_DUR ≤ (1 : ℚ) - 0 * SLIDE_DELAY ∧ get_position 0 300 500 1 = (300, 500)) ∧
    ((0 : ℚ) < 1/8 - 0 * SLIDE_DELAY ∧ get_position 0 300 500 (1/8) = (200, 500)) :=
  ⟨⟨by norm_num [SLIDE_DELAY], by
      have h := (get_position_spec 0 300 500 (-1) 0 0 0).1 (by norm_num [SLIDE_DELAY])
      rw [h]; norm_num⟩,
   ⟨by norm_num [SLIDE_DELAY, SLIDE_DUR], by
      have h := (get_position_spec 0 300 500 1 0 0 0).2.1
        (by norm_num [SLIDE_DELAY, SLIDE_DUR])
      rw [h]⟩,
   ⟨by norm_num [SLIDE_DELAY], by
      have h := (get_position_spec 0 300 500 (1/8) 0 0 0).2.2.1
        (by norm_num [SLIDE_DELAY]) (by norm_num [SLIDE_DELAY, SLIDE_DUR])
      rw [h]; norm_num [SLIDE_DELAY, SLIDE_DUR]⟩⟩

/-! ### clips.py: make_progress_bar -/

/-- Python `int(...)` (truncation toward zero) on an exact rational. -/
def pyInt (q : ℚ) : ℤ := if 0 ≤ q then ⌊q⌋ else -⌊-q⌋

/-- `bar_w = int(W * (t / duration))` from `make_frame` inside
`make_progress_bar` (clips.py). -/
def bar_w (duration t : ℚ) : ℤ := pyInt (W * (t / duration))

/-- The `make_frame` closure of `make_progress_bar`, one pixel row
(all 10 rows are identical): column `col` is filled with the foreground
color when `col < bar_w`, else keeps the background color. -/
def make_frame (duration t : ℚ) (col : ℕ) : ℕ × ℕ × ℕ :=
  if (col : ℤ) < bar_w duration t then bar_fg else bar_bg

/-- `make_progress_bar(duration)` (clips.py): the time-indexed frame. -/
def make_progress_bar (duration : ℚ) : ℚ → ℕ → ℕ × ℕ × ℕ := make_frame duration

/-- Number of foreground-colored columns of the frame at time `t`. -/
def filled_width (duration t : ℚ) : ℕ :=
  ((Finset.range W).filter fun c => make_progress_bar duration t c = bar_fg).card

theorem make_frame_eq_fg_iff (duration t : ℚ) (col : ℕ) :
    make_frame duration t col = bar_fg ↔ (col : ℤ) < bar_w duration t := by
  unfold make_frame
  by_cases h : (col : ℤ) < bar_w duration t
  · rw [if_pos h]
    exact ⟨fun _ => h, fun _ => rfl⟩
  · rw [if_neg h]
    constructor
    · intro he
      exact absurd he (by decide)
    · intro hc
      exact absurd hc h

theorem filled_width_le (duration t : ℚ) : filled_width duration t ≤ W := by
  calc filled_width duration t
      ≤ (Finset.range W).card := Finset.card_filter_le _ _
    _ = W := Finset.card_range W

/-- C6. The progress bar is empty at `t = 0`, exactly full-canvas wide at
`t = duration`, and its filled width is monotone in `t` on `[0, duration]`. -/
theorem progress_bar_fill_spec (duration t1 t2 : ℚ) (hd : 0 < duration) :
    filled_width duration 0 = 0 ∧
    filled_width duration duration = W ∧
    (0 ≤ t1 → t1 ≤ t2 → t2 ≤ duration → filled_width duration t1 ≤ filled_width duration t2) := by
  refine ⟨?_, ?_, ?_⟩
  · unfold filled_width make_progress_bar
    rw [Finset.card_eq_zero, Finset.filter_eq_empty_iff]
    intro c _
    rw [make_frame_eq_fg_iff]
    unfold bar_w pyInt
    norm_num
  · unfold filled_width make_progress_bar
    have hb : bar_w duration duration = (W : ℤ) := by
      unfold bar_w pyInt
      rw [div_self (ne_of_gt hd)]
      norm_num
    rw [show ((Finset.range W).filter fun c => make_frame duration duration c = bar_fg)
        = Finset.range W from ?_]
    · exact Finset.card_range W
    · rw [Finset.filter_eq_self]
      intro c hc
      rw [make_frame_eq_fg_iff, hb]
      exact_mod_cast Finset.mem_range.mp hc
  · intro h0 h12 h2d
    unfold filled_width make_progress_bar
    apply Finset.card_le_card
    intro c hc
    rw [Finset.mem_filter] at *
    refine ⟨hc.1, ?_⟩
    rw [make_frame_eq_fg_iff] at *
    refine lt_of_lt_of_le hc.2 ?_
    unfold bar_w pyInt
    have ht2 : (0 : ℚ) ≤ t2 := le_trans h0 h12
    have hq1 : (0 : ℚ) ≤ (W : ℚ) * (t1 / duration) := by positivity
    have hq2 : (0 : ℚ) ≤ (W : ℚ) * (t2 / duration) := by positivity
    rw [if_pos hq1, if_pos hq2]
    apply Int.floor_le_floor
    gcongr

/-- Witness for C6: a 10-second bar sampled at seconds 3 and 5. -/
theorem progress_bar_fill_spec_witness :
    (0 : ℚ) < 10 ∧
      (filled_width 10 0 = 0 ∧ filled_width 10 10 = W ∧
        ((0 : ℚ) ≤ 3 → (3 : ℚ) ≤ 5 → (5 : ℚ) ≤ 10 →
          filled_width 10 3 ≤ filled_width 10 5)) :=
  ⟨by norm_num, progress_bar_fill_spec 10 3 5 (by norm_num)⟩

/-! ### media.py and rendering.py: audio composition -/

/-- An audio clip: a start offset on the composite timeline, a duration,
and the decoded samples (clip-local time). -/
structure AudioClip where
  start : ℚ
  dur : ℚ
  sample : ℚ → ℚ

/-- Contribution of a clip to the composite timeline at time `t`. -/
def AudioClip.sampleAt (c : AudioClip) (t : ℚ) : ℚ :=
  if c.start ≤ t ∧ t < c.start + c.dur then c.sample (t - c.start) else 0

/-- moviepy `set_start`. -/
def AudioClip.set_start (c : AudioClip) (s : ℚ) : AudioClip := { c with start := s }

/-- moviepy `fx(volumex, f)`. -/
def AudioClip.volumex (c : AudioClip) (f : ℚ) : AudioClip :=
  { c with sample := fun t => f * c.sample t }

/-- A freshly decoded `AudioFileClip(path)`: starts at 0. -/
def AudioFileClip (f : ℚ → ℚ) (d : ℚ) : AudioClip := ⟨0, d, f⟩

/-- `AudioResources.get_clip` (media.py): `"tick"` returns the raw file
clip; `"ding"` returns the file clip `set_start(DUR_GUESS)` with volume
scaled by `0.05`; other names yield nothing. The decoded sources are
abstracted by sample functions and durations. -/
def get_clip (tickF : ℚ → ℚ) (tickD : ℚ) (dingF : ℚ → ℚ) (dingD : ℚ)
    (name : String) : Option AudioClip :=
  if name = "tick" then some (AudioFileClip tickF tickD)
  else if name = "ding" then
    some (((AudioFileClip dingF dingD).set_start DUR_GUESS).volumex 0.05)
  else none

/-- `CompositeAudioClip`: clips mix by summation. -/
def composite_audio (cs : List AudioClip) (t : ℚ) : ℚ :=
  (cs.map (fun c => c.sampleAt t)).sum

/-- `subclip(a, b)`: local time `t` plays composite time `a + t`
(for `0 ≤ t < b - a`). -/
def audio_subclip (a : ℚ) (mix : ℚ → ℚ) (t : ℚ) : ℚ := mix (a + t)

/-- The reveal-phase audio of `build_question_video` (rendering.py):
`CompositeAudioClip([tick_sound, ding_sound]).subclip(DUR_GUESS,
DUR_GUESS + DUR_REVEAL)`. -/
def reveal_audio (tick ding : AudioClip) : ℚ → ℚ :=
  audio_subclip DUR_GUESS (composite_audio [tick, ding])

/-- `concatenate_videoclips`: the start offset of each segment in the
concatenated timeline, given the segment durations. -/
def concat_starts : List ℚ → List ℚ
  | [] => []
  | d :: ds => 0 :: (concat_starts ds).map (· + d)

/-- C9. Within the reveal segment the ding cue begins at local offset 0
(its composite start `DUR_GUESS` coincides with the subclip origin), the
reveal audio also carries the tick track from the guess/reveal boundary
forward, and in the concatenated `[pause, guess, reveal]` timeline the
reveal segment begins at lead-in (1 s) plus `DUR_GUESS`. -/
theorem reveal_audio_spec (tickF dingF : ℚ → ℚ) (tickD dingD t : ℚ) (h0 : 0 ≤ t) :
    reveal_audio (AudioFileClip tickF tickD)
        (((AudioFileClip dingF dingD).set_start DUR_GUESS).volumex 0.05) t =
      (if DUR_GUESS + t < tickD then tickF (DUR_GUESS + t) else 0) +
        (if t < dingD then 0.05 * dingF t else 0) ∧
    get_clip tickF tickD dingF dingD "ding" =
      some (((AudioFileClip dingF dingD).set_start DUR_GUESS).volumex 0.05) ∧
    concat_starts [1, DUR_GUESS, DUR_REVEAL] = [0, 1, 1 + DUR_GUESS] := by
  refine ⟨?_, rfl, by norm_num [concat_starts, DUR_GUESS, DUR_REVEAL]⟩
  unfold reveal_audio audio_subclip composite_audio AudioClip.sampleAt AudioFileClip
    AudioClip.volumex AudioClip.set_start DUR_GUESS
  simp only [List.map_cons, List.map_nil, List.sum_cons, List.sum_nil]
  by_cases h1 : (10 : ℚ) + t < tickD
  · rw [if_pos (⟨by linarith, by linarith⟩ : (0 : ℚ) ≤ 10 + t ∧ 10 + t < 0 + tickD),
      if_pos h1]
    by_cases h2 : t < dingD
    · rw [if_pos (⟨by linarith, by linarith⟩ : (10 : ℚ) ≤ 10 + t ∧ 10 + t < 10 + dingD),
        if_pos h2]
      simp
    · rw [if_neg (fun hh => h2 (by linarith [hh.2])), if_neg h2]
      simp
  · rw [if_neg (fun hh => h1 (by linarith [hh.2])), if_neg h1]
    by_cases h2 : t < dingD
    · rw [if_pos (⟨by linarith, by linarith⟩ : (10 : ℚ) ≤ 10 + t ∧ 10 + t < 10 + dingD),
        if_pos h2]
      simp
    · rw [if_neg (fun hh => h2 (by linarith [hh.2])), if_neg h2]
      simp

/-- Witness for C9: at one second into the reveal of a 12-second tick
track and a 2-second ding, the reveal audio carries tick sample 11 plus
the attenuated ding. -/
theorem reveal_audio_spec_witness :
    (0 : ℚ) ≤ 1 ∧
      (reveal_audio (AudioFileClip (fun x => x) 12)
          (((AudioFileClip (fun _ => 7) 2).set_start DUR_GUESS).volumex 0.05) 1 =
        (if DUR_GUESS + 1 < 12 then (fun x : ℚ => x) (DUR_GUESS + 1) else 0) +
          (if (1 : ℚ) < 2 then 0.05 * (fun _ : ℚ => 7) 1 else 0) ∧
      get_clip (fun x => x) 12 (fun _ => 7) 2 "ding" =
        some (((AudioFileClip (fun _ => 7) 2).set_start DUR_GUESS).volumex 0.05) ∧
      concat_starts [1, DUR_GUESS, DUR_REVEAL] = [0, 1, 1 + DUR_GUESS]) :=
  ⟨by norm_num, reveal_audio_spec (fun x => x) (fun _ => 7) 12 2 1 (by norm_num)⟩

/-! ### Question data, external-library surface, dynamic call model -/

/-- One question of the bank: prompt text and the ordered option mapping. -/
structure QData where
  question : String
  options : List (String × Bool)

/-- Behavior of the external media libraries, abstracted: PIL text pixel
width, rendered-clip pixel height, `textwrap.fill`, and the decoded audio
sources (sample functions and durations). No claim depends on their
concrete values. -/
structure ExtLib where
  width : List Char → ℕ
  textHeight : List (List Char) → ℕ
  fill : List Char → ℕ → List Char
  tickF : ℚ → ℚ
  tickD : ℚ
  dingF : ℚ → ℚ
  dingD : ℚ

/-- A Python runtime value as far as the call sites need. Dynamic typing
matters: `build_question_video` passes an `OrderedDict` where
`make_option_clips` expects the question string. -/
inductive PyVal where
  | str : String → PyVal
  | num : ℚ → PyVal
  | dict : List (String × Bool) → PyVal

/-- Python `text.split()` attribute lookup: only `str` has it. -/
def py_split_method : PyVal → Except String (List (List Char))
  | .str s => .ok (pySplit s.data)
  | .num _ => .error "AttributeError: float object has no attribute split"
  | .dict _ => .error "AttributeError: OrderedDict object has no attribute split"

def py_as_num : PyVal → Except String ℚ
  | .num q => .ok q
  | _ => .error "TypeError: unsupported operand type"

/-- `wrap_text_pixel` invoked on a dynamic value: the argument must be a
string before its words can be measured. -/
def wrap_text_pixel_dyn (E : ExtLib) (text : PyVal) (maxW : ℕ) :
    Except String (List (List Char)) := do
  let ws ← py_split_method text
  return wrapLoop E.width maxW ws []

/-- `get_question_height` (clips.py): wraps the question text and measures
the rendered clip height. -/
def get_question_height (E : ExtLib) (question_text : PyVal) : Except String ℕ := do
  let wrapped ← wrap_text_pixel_dyn E question_text Q_WIDTH
  return E.textHeight wrapped

/-- `wrap_text(text, max_chars)` (clips.py): delegates to `textwrap.fill`. -/
def wrap_text (E : ExtLib) (text : List Char) (max_chars : ℕ) : List Char :=
  E.fill text max_chars

def MAX_OPT_CHARS_PER_LINE : ℕ := 25

/-- One rendered option row: text, style, timing and position function. -/
structure OptionClip where
  text : List Char
  bold : Bool
  font_size : ℕ
  color : ℕ × ℕ × ℕ
  duration : ℚ
  pos : ℚ → ℚ × ℚ
  start_time : ℚ

/-- Loop body of `make_option_clips` for the option `entry` at index
`idx`: reveal styling highlights the correct option (bold font, size 60,
highlight color), all else muted; guess styling is uniform muted with the
staggered slide-in position function and shortened clip duration. -/
def make_option_clip (E : ExtLib) (start_y dur : ℚ) (reveal : Bool)
    (idx : ℕ) (entry : String × Bool) : OptionClip :=
  let y := start_y + (idx / 2 : ℕ) * OPT_ROW_GAP
  let x0 := OPT_COLS.getD (idx % 2) 0
  let wrapped_opt :=
    wrap_text E ((toString (idx + 1)).data ++ ". ".data ++ entry.1.data) MAX_OPT_CHARS_PER_LINE
  if reveal then
    { text := wrapped_opt
      bold := entry.2
      font_size := if entry.2 then 60 else 50
      color := if entry.2 then correct_color else opt_color
      duration := dur
      pos := fun _ => (x0, y)
      start_time := 0 }
  else
    { text := wrapped_opt
      bold := false
      font_size := 50
      color := opt_color
      duration := clip_duration dur idx
      pos := get_position idx x0 y
      start_time := idx * SLIDE_DELAY }

/-- `make_option_clips(question_text, options, dur, reveal=False)`
(clips.py): measures the question height first, then renders each option. -/
def make_option_clips (E : ExtLib) (question_text options dur : PyVal)
    (reveal : Bool) : Except String (List OptionClip) := do
  let qh ← get_question_height E question_text
  let opts ← match options with
    | .dict d => Except.ok d
    | _ => Except.error "AttributeError: object has no attribute items"
  let d ← py_as_num dur
  return (opts.enum.map fun p =>
    make_option_clip E (Q_TOP_MARGIN + qh + OPT_TOP_GAP) d reveal p.1 p.2)

/-- Python call binding for the `make_option_clips` call sites in
rendering.py: the function declares three required positional parameters
(`question_text`, `options`, `dur`) plus the keyword `reveal`; a call
supplying fewer positional arguments raises `TypeError` before the body
runs. -/
def call_make_option_clips (E : ExtLib) (posArgs : List PyVal) (reveal : Bool) :
    Except String (List OptionClip) :=
  match posArgs with
  | [question_text, options, dur] => make_option_clips E question_text options dur reveal
  | _ => .error "TypeError: make_option_clips missing 1 required positional argument: dur"

/-- `make_question_clip` (clips.py): pixel-wraps the question and renders
it for the given duration. -/
def make_question_clip (E : ExtLib) (question_text : List Char) (dur : ℚ) :
    List (List Char) × ℚ :=
  (wrap_text_pixel E.width question_text Q_WIDTH, dur)

/-- `os.path.join(dir, name)` for the simple paths used here. -/
def pyJoin (dir name : String) : String :=
  if dir = "" then name else dir ++ "/" ++ name

/-- `build_question_video` (rendering.py). The audio resources are the
clips `AudioResources.get_clip` returns for "tick" and "ding". Both
`make_option_clips` call sites pass exactly the positional arguments of
the source, `(options, DUR_GUESS)` resp. `(options, DUR_REVEAL)`. -/
def build_question_video (E : ExtLib) (question_id : String) (data : QData)
    (output_dir : String) : Except String String := do
  let question_text := question_id ++ ". " ++ data.question
  let options := data.options
  let tick_sound := AudioFileClip E.tickF E.tickD
  let ding_sound := ((AudioFileClip E.dingF E.dingD).set_start DUR_GUESS).volumex 0.05
  let _q1 := make_question_clip E question_text.data DUR_GUESS
  let _opt1 ← call_make_option_clips E [PyVal.dict options, PyVal.num DUR_GUESS] false
  let _bar := make_progress_bar DUR_GUESS
  let _audio1 := composite_audio [tick_sound]
  let _q2 := make_question_clip E question_text.data DUR_REVEAL
  let _opt2 ← call_make_option_clips E [PyVal.dict options, PyVal.num DUR_REVEAL] true
  let _audio2 := reveal_audio tick_sound ding_sound
  let _starts := concat_starts [1, DUR_GUESS, DUR_REVEAL]
  return pyJoin output_dir ("quiz_" ++ question_id ++ ".mp4")

/-! ### main.py: per-question driver and batching -/

/-- Result of one `process_question` call: the returned path (None on
failure), whether the composer was actually invoked, and the printed log. -/
structure PQResult where
  result : Option String
  invoked_composer : Bool
  log : List String

/-- `process_question` (main.py): returns the existing artifact path
without building when the file exists; otherwise invokes the composer,
catching any exception at this per-question boundary. `fs` is the set of
existing paths. -/
def process_question (fs : List String) (build : String → QData → Except String String)
    (output_dir qid : String) (qdata : QData) : PQResult :=
  if pyJoin output_dir ("quiz_" ++ qid ++ ".mp4") ∈ fs then
    { result := some (pyJoin output_dir ("quiz_" ++ qid ++ ".mp4"))
      invoked_composer := false
      log := ["Question ID " ++ qid ++ " already rendered, skipping."] }
  else
    match build qid qdata with
    | .ok p =>
      { result := some p
        invoked_composer := true
        log := ["Rendering question ID: " ++ qid] }
    | .error e =>
      { result := none
        invoked_composer := true
        log := ["Rendering question ID: " ++ qid,
          "Error processing question " ++ qid ++ ": " ++ e] }

/-- `pool.map(process_question, batch)`: results in input order. -/
def run_batch (fs : List String) (build : String → QData → Except String String)
    (output_dir : String) (items : List (String × QData)) : List PQResult :=
  items.map fun it => process_question fs build output_dir it.1 it.2

/-- `[path for path in batch_results if path]`. -/
def collect_paths (results : List PQResult) : List String :=
  results.filterMap (fun r => r.result)

/-- The render stage: batch-process all items, keep successful paths. -/
def run_render (fs : List String) (build : String → QData → Except String String)
    (output_dir : String) (items : List (String × QData)) : List String :=
  collect_paths (run_batch fs build output_dir items)

/-! ### utils.py: existing-id scan and skip-existing filter -/

/-- The id part of a filename, `file[len("quiz_"):-4]`. -/
def strip_name (file : String) : List Char :=
  ((file.data.drop 5).take ((file.data.drop 5).length - 4))

/-- `get_existing_question_ids` (utils.py). -/
def get_existing_question_ids (listing : List String) : List String :=
  (listing.filter fun f =>
      "quiz_".data.isPrefixOf f.data && ".mp4".data.isSuffixOf f.data).map
    (fun f => String.mk (strip_name f))

/-- `filter_questions_to_render` (utils.py): keeps a question dict when
one of its keys either has no artifact yet or is force-rendered. -/
def filter_questions_to_render (questions : List (List (String × QData)))
    (listing : List String) (force_render : Option (List String)) :
    List (List (String × QData)) :=
  let existing_ids := get_existing_question_ids listing
  let force_set := force_render.getD []
  questions.filter fun q =>
    q.any fun kv => !(existing_ids.contains kv.1) || force_set.contains kv.1

/-! ### C1: the render pipeline on the one-question bank -/

def c1_data : QData :=
  ⟨"2+2=?", [("3", false), ("4", true), ("5", false), ("6", false)]⟩

def c1_bank : List (String × QData) := [("1", c1_data)]

/-- C1 (code bug). `build_question_video` invokes `make_option_clips`
with only two positional arguments (`options`, the phase duration),
leaving the required `dur` parameter unbound, so every render raises
`TypeError`; the one-question bank therefore yields no artifact at all
(in particular not `quiz_1.mp4`), for every library behavior `E`. -/
theorem build_question_video_raises (E : ExtLib) :
    build_question_video E "1" c1_data "output" =
      .error "TypeError: make_option_clips missing 1 required positional argument: dur" ∧
    (process_question [] (fun qid qd => build_question_video E qid qd "output")
        "output" "1" c1_data).result = none ∧
    run_render [] (fun qid qd => build_question_video E qid qd "output")
        "output" c1_bank = [] :=
  ⟨rfl, rfl, rfl⟩

/-! ### C2: force-render ids are still skipped by process_question -/

def c2_question : List (String × QData) := [("1", c1_data)]

def c2_listing : List String := ["quiz_1.mp4"]

def c2_fs : List String := ["output/quiz_1.mp4"]

/-- C2 (code bug). With `quiz_1.mp4` already present, skip-existing
enabled and id "1" in the force-render list, the skip-existing filter
does re-include question 1, but `process_question` still sees the file
and returns its path without ever invoking the composer — for every
composer `build`. -/
theorem force_render_still_skipped (build : String → QData → Except String String) :
    filter_questions_to_render [c2_question] c2_listing (some ["1"]) = [c2_question] ∧
    (process_question c2_fs build "output" "1" c1_data).invoked_composer = false ∧
    (process_question c2_fs build "output" "1" c1_data).result = some "output/quiz_1.mp4" :=
  ⟨rfl, rfl, rfl⟩

/-! ### C8: per-question error isolation -/

/-- C8. When the composer raises on a question whose artifact does not
exist yet, the exception is caught at the per-question boundary: the
result is None, the error is logged, and the batch result is exactly the
per-item results of the surrounding questions, unaffected. -/
theorem process_question_error_isolated (fs : List String)
    (build : String → QData → Except String String) (output_dir qid : String)
    (qdata : QData) (e : String) (pre post : List (String × QData))
    (hnf : pyJoin output_dir ("quiz_" ++ qid ++ ".mp4") ∉ fs)
    (herr : build qid qdata = .error e) :
    (process_question fs build output_dir qid qdata).result = none ∧
    ("Error processing question " ++ qid ++ ": " ++ e) ∈
      (process_question fs build output_dir qid qdata).log ∧
    run_batch fs build output_dir (pre ++ (qid, qdata) :: post) =
      run_batch fs build output_dir pre ++
        process_question fs build output_dir qid qdata ::
          run_batch fs build output_dir post := by
  have hres : process_question fs build output_dir qid qdata =
      { result := none
        invoked_composer := true
        log := ["Rendering question ID: " ++ qid,
          "Error processing question " ++ qid ++ ": " ++ e] } := by
    unfold process_question
    rw [if_neg hnf, herr]
  refine ⟨by rw [hres], by rw [hres]; simp, ?_⟩
  unfold run_batch
  simp

def c8_build : String → QData → Except String String := fun _ _ => .error "boom"

/-- Witness for C8: a failing middle question between two others. -/
theorem process_question_error_isolated_witness :
    (pyJoin "out" ("quiz_" ++ "1" ++ ".mp4") ∉ ([] : List String) ∧
      c8_build "1" c1_data = .error "boom") ∧
    ((process_question [] c8_build "out" "1" c1_data).result = none ∧
      ("Error processing question " ++ "1" ++ ": " ++ "boom") ∈
        (process_question [] c8_build "out" "1" c1_data).log ∧
      run_batch [] c8_build "out" ([("0", c1_data)] ++ ("1", c1_data) :: [("2", c1_data)]) =
        run_batch [] c8_build "out" [("0", c1_data)] ++
          process_question [] c8_build "out" "1" c1_data ::
            run_batch [] c8_build "out" [("2", c1_data)]) :=
  ⟨⟨by simp, rfl⟩,
    process_question_error_isolated [] c8_build "out" "1" c1_data "boom"
      [("0", c1_data)] [("2", c1_data)] (by simp) rfl⟩

/-! ### utils.py: discover_output_files; concat.py: the concat manifest -/

def digitVal (c : Char) : ℕ := c.toNat - 48

/-- The characters Python strips around an int literal, within ASCII:
code points 9 to 13 and 28 to 32 (the CPython whitespace test). -/
def pyIsSpace (c : Char) : Bool :=
  (9 ≤ c.toNat && c.toNat ≤ 13) || (28 ≤ c.toNat && c.toNat ≤ 32)

/-- Surrounding-whitespace stripping performed by Python `int(s)`. -/
def pyStrip (cs : List Char) : List Char :=
  ((cs.dropWhile pyIsSpace).reverse.dropWhile pyIsSpace).reverse

/-- Digit-run parser after the first digit has been consumed: further
digits accumulate; a single underscore is allowed only between two
digits (so `1_0` parses, while `1_`, `_1` and `1__0` raise). -/
def parseDigitsRest : List Char → ℕ → Option ℕ
  | [], n => some n
  | c :: cs, n =>
    if c.isDigit then parseDigitsRest cs (10 * n + digitVal c)
    else if c = '_' then
      match cs with
      | d :: cs' => if d.isDigit then parseDigitsRest cs' (10 * n + digitVal d) else none
      | [] => none
    else none

/-- A decimal digit run with underscore grouping; must begin with a digit. -/
def parseDigits : List Char → Option ℕ
  | [] => none
  | c :: cs => if c.isDigit then parseDigitsRest cs (digitVal c) else none

/-- Python `int(s)` with base 10: surrounding whitespace stripped, an
optional sign, then decimal digits with single underscores permitted
between digits; everything else raises `ValueError`, modelled as `none`.
Exact for ASCII strings; non-ASCII decimal digits and whitespace are
outside the model, and the theorems that rely on `none` meaning
`ValueError` carry an ASCII hypothesis for that reason. -/
def pyParseInt (cs : List Char) : Option ℤ :=
  match pyStrip cs with
  | [] => none
  | c :: rest =>
    if c = '-' then (parseDigits rest).map (fun n => -(n : ℤ))
    else if c = '+' then (parseDigits rest).map (fun n => (n : ℤ))
    else (parseDigits (c :: rest)).map (fun n => (n : ℤ))

/-- `get_question_num` (utils.py, inside `discover_output_files`): the
integer between `quiz_` and `.mp4`, with `ValueError` caught to 0. -/
def get_question_num (file : String) : ℤ := (pyParseInt (strip_name file)).getD 0

/-- The comparison behind `sorted(found_files, key=get_question_num)`. -/
def quiz_le (a b : String) : Prop := get_question_num a ≤ get_question_num b

instance : DecidableRel quiz_le := fun a b =>
  inferInstanceAs (Decidable (get_question_num a ≤ get_question_num b))

instance : IsTotal String quiz_le := ⟨fun _ _ => le_total _ _⟩

instance : IsTrans String quiz_le := ⟨fun _ _ _ => le_trans⟩

/-- The `quiz_*.mp4` names of the directory listing, sorted by embedded
question number. Python `sorted` is stable, and insertion sort on a total
preorder is the same stable sort. -/
def sorted_found (listing : List String) : List String :=
  List.insertionSort quiz_le (listing.filter fun f =>
    "quiz_".data.isPrefixOf f.data && ".mp4".data.isSuffixOf f.data)

/-- `discover_output_files` (utils.py). The source joins each found name
onto `dir_path` and sorts by the number in the basename; joining leaves
the basename intact, so this equals sorting the names and joining after. -/
def discover_output_files (dir_path : String) (listing : List String) : List String :=
  (sorted_found listing).map (fun f => pyJoin dir_path f)

/-- `render_intro_clip` (concat.py): the singleton intro artifact path
(reused when present, rebuilt otherwise; either way this path returns). -/
def render_intro_clip (output_dir : String) : String := pyJoin output_dir "intro.mp4"

def quoteChar : Char := Char.ofNat 39

/-- One manifest line: the word `file` plus the single-quoted path. -/
def manifest_line (p : String) : String :=
  "file " ++ String.mk [quoteChar] ++ p ++ String.mk [quoteChar]

/-- `create_concat_list` (concat.py): the manifest lines, intro artifact
first, then the handed-over paths in their given order. -/
def create_concat_list (output_paths : List String) (output_dir : String) : List String :=
  ([render_intro_clip output_dir] ++ output_paths).map manifest_line

/-- main.py: the paths handed to concatenation — the paths collected
while rendering if any, otherwise the discovered files. -/
def main_output_paths (skip_rendering : Bool) (fs : List String)
    (build : String → QData → Except String String) (output_dir : String)
    (items : List (String × QData)) (listing : List String) : List String :=
  if (if skip_rendering then [] else run_render fs build output_dir items) = [] then
    discover_output_files output_dir listing
  else if skip_rendering then [] else run_render fs build output_dir items

/-- main.py steps 2: the written concat manifest of a run. -/
def main_manifest (skip_rendering : Bool) (fs : List String)
    (build : String → QData → Except String String) (output_dir : String)
    (items : List (String × QData)) (listing : List String) : List String :=
  create_concat_list
    (main_output_paths skip_rendering fs build output_dir items listing) output_dir

/-! ### C3: manifest ordering -/

def c3_build : String → QData → Except String String := fun _ _ => .error "unused"

def c3_items : List (String × QData) := [("2", c1_data), ("1", c1_data)]

def c3_fs : List String := ["quiz_2.mp4", "quiz_1.mp4"]

/-- Counterexample to C3 as stated: when the render stage collects paths
(here both artifacts already exist and the bank lists "2" before "1"),
the manifest lists them in collection order, `quiz_2` before `quiz_1`,
not in ascending numeric id order. -/
theorem manifest_not_numeric_ordered :
    main_output_paths false c3_fs c3_build "" c3_items [] = ["quiz_2.mp4", "quiz_1.mp4"] ∧
    main_manifest false c3_fs c3_build "" c3_items [] =
      [manifest_line "intro.mp4", manifest_line "quiz_2.mp4", manifest_line "quiz_1.mp4"] ∧
    ¬ List.Pairwise quiz_le ["quiz_2.mp4", "quiz_1.mp4"] :=
  ⟨rfl, rfl, by decide⟩

/-- C3 amended: on every run in which the render stage collected no
artifact paths (for instance under `--skip-rendering`), the manifest
lists the intro artifact first and then the discovered per-question
artifacts sorted by nondecreasing embedded question number, the number
parsed by Python `int` with `ValueError` keyed 0. The ASCII hypothesis
is not needed by the proof; it restricts the statement to listings on
which the embedded `pyParseInt` agrees with Python `int` exactly, so
that every instance is a true statement about the program. -/
theorem manifest_sorted_on_discovery (skip_rendering : Bool) (fs : List String)
    (build : String → QData → Except String String) (output_dir : String)
    (items : List (String × QData)) (listing : List String)
    (_hascii : ∀ f ∈ listing, ∀ c ∈ f.data, c.toNat < 128)
    (hempty : (if skip_rendering then [] else run_render fs build output_dir items) = []) :
    main_manifest skip_rendering fs build output_dir items listing =
      manifest_line (render_intro_clip output_dir) ::
        (sorted_found listing).map (fun f => manifest_line (pyJoin output_dir f)) ∧
    List.Pairwise quiz_le (sorted_found listing) := by
  constructor
  · unfold main_manifest main_output_paths create_concat_list discover_output_files
    rw [hempty]
    simp [List.map_map, Function.comp]
  · exact List.sorted_insertionSort quiz_le _

/-- Witness for C3 (amended): a skip-rendering run over a listing whose
lexicographic and numeric orders differ; `quiz_2` sorts before `quiz_10`. -/
theorem manifest_sorted_on_discovery_witness :
    ((∀ f ∈ ["quiz_10.mp4", "quiz_2.mp4"], ∀ c ∈ f.data, c.toNat < 128) ∧
      (if true then ([] : List String) else run_render [] c3_build "out" []) = []) ∧
    (main_manifest true [] c3_build "out" [] ["quiz_10.mp4", "quiz_2.mp4"] =
      manifest_line (render_intro_clip "out") ::
        (sorted_found ["quiz_10.mp4", "quiz_2.mp4"]).map
          (fun f => manifest_line (pyJoin "out" f)) ∧
    List.Pairwise quiz_le (sorted_found ["quiz_10.mp4", "quiz_2.mp4"])) :=
  ⟨⟨by decide, rfl⟩, manifest_sorted_on_discovery true [] c3_build "out" []
    ["quiz_10.mp4", "quiz_2.mp4"] (by decide) rfl⟩

/-! ### C10: non-numeric artifact names in discovery -/

theorem isPrefixOf_append_self (l t : List Char) : l.isPrefixOf (l ++ t) = true := by
  induction l with
  | nil => simp [List.isPrefixOf]
  | cons a as ih => simp [List.isPrefixOf, ih]

theorem isSuffixOf_append_self (l t : List Char) : l.isSuffixOf (t ++ l) = true := by
  simp [List.isSuffixOf, List.reverse_append, isPrefixOf_append_self]

theorem strip_name_concat (X : String) :
    strip_name ("quiz_" ++ X ++ ".mp4") = X.data := by
  unfold strip_name
  have hdata : ("quiz_" ++ X ++ ".mp4").data = "quiz_".data ++ (X.data ++ ".mp4".data) := by
    simp [List.append_assoc]
  rw [hdata]
  rw [show (5 : ℕ) = "quiz_".data.length from rfl, List.drop_left]
  have hlen : (X.data ++ ".mp4".data).length - 4 = X.data.length := by
    simp
  rw [hlen, List.take_left]

/-- Counterexample to C10 as stated: the id `1_0` is not a decimal
integer string, yet Python `int` accepts it (underscore digit grouping),
so `quiz_1_0.mp4` is assigned sort key 10 — not 0 — and the
positive-keyed `quiz_5.mp4` is ordered before it. -/
theorem discover_underscore_key_counterexample :
    get_question_num "quiz_1_0.mp4" = 10 ∧
    get_question_num "quiz_5.mp4" = 5 ∧
    sorted_found ["quiz_5.mp4", "quiz_1_0.mp4"] = ["quiz_5.mp4", "quiz_1_0.mp4"] := by
  decide

/-- C10 amended. A listing entry `quiz_<X>.mp4` whose ASCII `<X>` is a
string Python `int` rejects (not an optionally signed, possibly
underscore-grouped digit run after whitespace stripping) does not make
discovery raise: its sort key is 0, it is included in the discovered
list, and no entry with positive embedded number precedes it.
(`discover_output_files` and its sort are total functions; the caught
`ValueError` is the `getD 0` in `get_question_num`. The ASCII hypothesis
keeps `pyParseInt X = none` equivalent to Python raising on `X`.) -/
theorem discover_unparsable_ok (listing : List String) (X : String)
    (_hascii : ∀ c ∈ X.data, c.toNat < 128)
    (hX : pyParseInt X.data = none)
    (hmem : ("quiz_" ++ X ++ ".mp4") ∈ listing) :
    get_question_num ("quiz_" ++ X ++ ".mp4") = 0 ∧
    ("quiz_" ++ X ++ ".mp4") ∈ sorted_found listing ∧
    ∀ l1 l2, sorted_found listing = l1 ++ ("quiz_" ++ X ++ ".mp4") :: l2 →
      ∀ g ∈ l1, get_question_num g ≤ 0 := by
  have hkey : get_question_num ("quiz_" ++ X ++ ".mp4") = 0 := by
    unfold get_question_num
    rw [strip_name_concat, hX]
    rfl
  have hdata : ("quiz_" ++ X ++ ".mp4").data = "quiz_".data ++ (X.data ++ ".mp4".data) := by
    simp [List.append_assoc]
  have hfilter : ("quiz_" ++ X ++ ".mp4") ∈ listing.filter fun f =>
      "quiz_".data.isPrefixOf f.data && ".mp4".data.isSuffixOf f.data := by
    rw [List.mem_filter]
    refine ⟨hmem, ?_⟩
    rw [Bool.and_eq_true]
    constructor
    · rw [hdata]
      exact isPrefixOf_append_self _ _
    · rw [show ("quiz_" ++ X ++ ".mp4").data
          = ("quiz_".data ++ X.data) ++ ".mp4".data by simp,
        isSuffixOf_append_self]
  have hsortmem : ("quiz_" ++ X ++ ".mp4") ∈ sorted_found listing :=
    (List.perm_insertionSort quiz_le _).mem_iff.mpr hfilter
  refine ⟨hkey, hsortmem, ?_⟩
  intro l1 l2 heq g hg
  have hsorted : List.Pairwise quiz_le (sorted_found listing) :=
    List.sorted_insertionSort quiz_le _
  rw [heq] at hsorted
  have hrel : quiz_le g ("quiz_" ++ X ++ ".mp4") :=
    (List.pairwise_append.mp hsorted).2.2 g hg _ (List.mem_cons_self _ _)
  unfold quiz_le at hrel
  rw [hkey] at hrel
  exact hrel

/-- Witness for C10 (amended): a listing holding `quiz_3.mp4` and
`quiz_final.mp4`; `int("final")` raises, so the entry keys to 0 and
sorts first. -/
theorem discover_unparsable_ok_witness :
    ((∀ c ∈ "final".data, c.toNat < 128) ∧ pyParseInt "final".data = none ∧
      ("quiz_" ++ "final" ++ ".mp4") ∈ ["quiz_3.mp4", "quiz_final.mp4"]) ∧
    (get_question_num ("quiz_" ++ "final" ++ ".mp4") = 0 ∧
      ("quiz_" ++ "final" ++ ".mp4") ∈ sorted_found ["quiz_3.mp4", "quiz_final.mp4"] ∧
      ∀ l1 l2, sorted_found ["quiz_3.mp4", "quiz_final.mp4"] =
          l1 ++ ("quiz_" ++ "final" ++ ".mp4") :: l2 →
        ∀ g ∈ l1, get_question_num g ≤ 0) :=
  ⟨⟨by decide, by decide, by decide⟩,
    discover_unparsable_ok ["quiz_3.mp4", "quiz_final.mp4"] "final" (by decide) (by decide)
      (by decide)⟩

end QuizVideo
